import Mathlib

/-
Verification of the core data pipeline of the Instagram followers analyzer
(src/script.js): the Normalizer (extractUsernames), the JSON parse guard
(parseJSON), the input unwrapper and the reciprocity computation inside
analyze.  JavaScript values are shallowly embedded as the inductive JSVal;
operations that can throw a TypeError are modelled in the Except monad.
-/

/-- A JavaScript (JSON-extended) value: null, undefined, booleans, numbers
(modelled as integers; the repository never does arithmetic on them),
strings, arrays and plain objects with an ordered field list. -/
inductive JSVal where
  | vnull
  | vundefined
  | vbool (b : Bool)
  | vnum (n : Int)
  | vstr (s : String)
  | varr (elems : List JSVal)
  | vobj (fields : List (String × JSVal))

/-- JavaScript truthiness: null, undefined, false, 0 and the empty string
are falsy; every array and object is truthy. -/
def truthy : JSVal → Bool
  | .vnull => false
  | .vundefined => false
  | .vbool b => b
  | .vnum n => n != 0
  | .vstr s => s != ""
  | .varr _ => true
  | .vobj _ => true

/-- A value is nullish when it is null or undefined; property access on a
nullish value throws a TypeError. -/
def notNullish : JSVal → Bool
  | .vnull => false
  | .vundefined => false
  | _ => true

/-- Field lookup on the object shape only: some v when the receiver is an
object carrying the key, none otherwise. -/
def lookupKey (v : JSVal) (k : String) : Option JSVal :=
  match v with
  | .vobj fs => fs.lookup k
  | _ => none

/-- Total property read for non-nullish receivers: objects yield the field
or undefined, every other non-nullish value yields undefined (the
repository never reads built-in properties such as length). -/
def jsGetD (v : JSVal) (k : String) : JSVal :=
  match v with
  | .vobj fs => (fs.lookup k).getD .vundefined
  | _ => .vundefined

/-- Property read as the dot operator: throws a TypeError on null or
undefined receivers, otherwise reads like jsGetD. -/
def getFieldE (v : JSVal) (k : String) : Except String JSVal :=
  match v with
  | .vnull => .error "TypeError: cannot read properties of null"
  | .vundefined => .error "TypeError: cannot read properties of undefined"
  | _ => .ok (jsGetD v k)

/-- Optional-chaining property read, as in entry?.value: undefined when the
receiver is nullish, never a TypeError. -/
def optGet (v : JSVal) (k : String) : JSVal :=
  if notNullish v then jsGetD v k else .vundefined

/-- Index read at position 0 on a non-nullish receiver, as in sld[0]:
first array element, object field named 0, first character of a string,
undefined everywhere else or when the collection is empty. -/
def index0 : JSVal → JSVal
  | .varr (x :: _) => x
  | .varr [] => .vundefined
  | .vobj fs => (fs.lookup "0").getD .vundefined
  | .vstr s =>
    match s.data with
    | c :: _ => .vstr (String.mk [c])
    | [] => .vundefined
  | _ => .vundefined

/-- Optional-chaining index read, as in string_list_data?.[0]. -/
def optIndex0 (v : JSVal) : JSVal :=
  if notNullish v then index0 v else .vundefined

/-- The JavaScript or-operator: the left operand when truthy, otherwise the
right one. -/
def jsOr (a b : JSVal) : JSVal :=
  if truthy a then a else b

/-- The record shape produced by the map step of extractUsernames: an
object with exactly a username and an href field, both arbitrary values. -/
structure JRec where
  username : JSVal
  href : JSVal

/-- One map-step of extractUsernames (src/script.js lines 146 to 152):
entry is item.string_list_data?.[0]; username is
entry?.value or item.title or the empty string; href is entry?.href or the
empty string.  Reading item.string_list_data (and item.title) throws when
item is nullish. -/
def deriveRecord (item : JSVal) : Except String JRec := do
  let sld ← getFieldE item "string_list_data"
  let entry := optIndex0 sld
  let title ← getFieldE item "title"
  pure { username := jsOr (optGet entry "value") (jsOr title (.vstr ""))
         href := jsOr (optGet entry "href") (.vstr "") }

/-- Effectful map over a list in the Except monad, as Array.prototype.map
where the callback can throw: the first throw aborts the whole call. -/
def mapE (f : α → Except ε β) : List α → Except ε (List β)
  | [] => .ok []
  | x :: xs =>
    match f x with
    | .error e => .error e
    | .ok y =>
      match mapE f xs with
      | .error e => .error e
      | .ok ys => .ok (y :: ys)

/-- extractUsernames (src/script.js lines 140 to 154): empty list for any
non-array input, otherwise map deriveRecord over the elements and keep the
records whose username is truthy. -/
def extractUsernames (data : JSVal) : Except String (List JRec) :=
  match data with
  | .varr items => do
    let recs ← mapE deriveRecord items
    pure (recs.filter fun r => truthy r.username)
  | _ => .ok []

/-- Whether a value is an array. -/
def isArr : JSVal → Bool
  | .varr _ => true
  | _ => false

/-- Whether a value is a string. -/
def isStr : JSVal → Bool
  | .vstr _ => true
  | _ => false

/-- Length of the input array, 0 for non-arrays. -/
def inputLen : JSVal → Nat
  | .varr xs => xs.length
  | _ => 0

/-- Locale-independent lowercase folding, modelling the character-wise
behaviour of String.prototype.toLowerCase on the usernames involved. -/
def strToLower (s : String) : String :=
  String.mk (s.data.map Char.toLower)

/-- x.username.toLowerCase(): succeeds with the folded string when the
username is a string, throws a TypeError otherwise. -/
def toLowerE (v : JSVal) : Except String String :=
  match v with
  | .vstr s => .ok (strToLower s)
  | _ => .error "TypeError: toLowerCase is not a function"

/-- A canonical contact record as produced by the Normalizer on well-formed
exports: a username string and an href string. -/
structure ContactRecord where
  username : String
  href : String
deriving DecidableEq

/-- The lookup set of src/script.js line 210 at the canonical level: the
lowercase-folded usernames of the followers list (Set membership on
strings coincides with list membership). -/
def followersSet (followers : List ContactRecord) : List String :=
  followers.map fun x => strToLower x.username

/-- The reciprocity computation of src/script.js lines 213 to 215 at the
canonical level: keep the following records whose folded username does not
occur in the lookup set. -/
def notFollowingBack (following followers : List ContactRecord) : List ContactRecord :=
  following.filter fun x => !(followersSet followers).contains (strToLower x.username)

/- A JSON text parser modelling the built-in JSON.parse, which is part of
the JavaScript platform rather than of the repository.  It covers the
fragment the repository can meet in its claims: null, booleans, integer
numbers, strings with the common escapes, arrays and objects; any other
text is a parse error carrying a message. -/

def lbraceC : Char := Char.ofNat 123

def rbraceC : Char := Char.ofNat 125

def dquoteC : Char := Char.ofNat 34

def bslashC : Char := Char.ofNat 92

/-- Drop leading JSON whitespace. -/
def skipWs : List Char → List Char
  | c :: cs => if c.isWhitespace then skipWs cs else c :: cs
  | [] => []

/-- Parse the remainder of a quoted string, after its opening quote. -/
def parseStrRest : List Char → Except String (List Char × List Char)
  | [] => .error "json: unterminated string"
  | c :: cs =>
    if c = dquoteC then .ok ([], cs)
    else if c = bslashC then
      match cs with
      | [] => .error "json: unterminated escape"
      | d :: ds =>
        let esc : Except String Char :=
          if d = dquoteC then .ok dquoteC
          else if d = bslashC then .ok bslashC
          else if d = '/' then .ok '/'
          else if d = 'n' then .ok '\n'
          else if d = 't' then .ok '\t'
          else if d = 'r' then .ok '\r'
          else .error "json: unsupported escape"
        match esc with
        | .ok e => do
          let (s, rest) ← parseStrRest ds
          pure (e :: s, rest)
        | .error m => .error m
    else do
      let (s, rest) ← parseStrRest cs
      pure (c :: s, rest)

/-- Decimal value of a digit run. -/
def digitsVal (ds : List Char) : Nat :=
  ds.foldl (fun acc c => acc * 10 + (c.toNat - 48)) 0

/-- Parse an integer JSON number starting at the given characters. -/
def parseNum (cs : List Char) : Except String (JSVal × List Char) :=
  let signed : Bool × List Char :=
    match cs with
    | c :: tl => if c = '-' then (true, tl) else (false, cs)
    | [] => (false, cs)
  let spanned := signed.2.span Char.isDigit
  if spanned.1.isEmpty then .error "json: invalid number"
  else
    let n : Int := Int.ofNat (digitsVal spanned.1)
    .ok (.vnum (if signed.1 then -n else n), spanned.2)

/-- Consume an expected literal character run. -/
def dropLit : List Char → List Char → Option (List Char)
  | [], cs => some cs
  | l :: ls, c :: cs => if c = l then dropLit ls cs else none
  | _ :: _, [] => none

mutual

/-- Parse one JSON value, fuel-indexed. -/
def parseVal : Nat → List Char → Except String (JSVal × List Char)
  | 0, _ => .error "json: input too deeply nested"
  | fuel + 1, cs =>
    match skipWs cs with
    | [] => .error "json: unexpected end of input"
    | c :: rest =>
      if c = dquoteC then do
        let sr ← parseStrRest rest
        pure (.vstr (String.mk sr.1), sr.2)
      else if c = '[' then
        match skipWs rest with
        | d :: rest2 => if d = ']' then .ok (.varr [], rest2) else parseArrItems fuel rest []
        | [] => .error "json: unterminated array"
      else if c = lbraceC then
        match skipWs rest with
        | d :: rest2 => if d = rbraceC then .ok (.vobj [], rest2) else parseObjItems fuel rest []
        | [] => .error "json: unterminated object"
      else if c = 'n' then
        match dropLit ['u', 'l', 'l'] rest with
        | some rest2 => .ok (.vnull, rest2)
        | none => .error "json: unexpected token"
      else if c = 't' then
        match dropLit ['r', 'u', 'e'] rest with
        | some rest2 => .ok (.vbool true, rest2)
        | none => .error "json: unexpected token"
      else if c = 'f' then
        match dropLit ['a', 'l', 's', 'e'] rest with
        | some rest2 => .ok (.vbool false, rest2)
        | none => .error "json: unexpected token"
      else if c = '-' || c.isDigit then parseNum (c :: rest)
      else .error "json: unexpected token"

/-- Parse the items of a non-empty array, fuel-indexed. -/
def parseArrItems : Nat → List Char → List JSVal → Except String (JSVal × List Char)
  | 0, _, _ => .error "json: input too deeply nested"
  | fuel + 1, cs, acc => do
    let vr ← parseVal fuel cs
    match skipWs vr.2 with
    | c :: rest =>
      if c = ',' then parseArrItems fuel rest (vr.1 :: acc)
      else if c = ']' then .ok (.varr (vr.1 :: acc).reverse, rest)
      else .error "json: expected comma or end of array"
    | [] => .error "json: unterminated array"

/-- Parse the entries of a non-empty object, fuel-indexed. -/
def parseObjItems : Nat → List Char → List (String × JSVal) → Except String (JSVal × List Char)
  | 0, _, _ => .error "json: input too deeply nested"
  | fuel + 1, cs, acc =>
    match skipWs cs with
    | c :: rest =>
      if c = dquoteC then do
        let kr ← parseStrRest rest
        match skipWs kr.2 with
        | c2 :: rest3 =>
          if c2 = ':' then do
            let vr ← parseVal fuel rest3
            match skipWs vr.2 with
            | c3 :: rest5 =>
              if c3 = ',' then parseObjItems fuel rest5 ((String.mk kr.1, vr.1) :: acc)
              else if c3 = rbraceC then
                .ok (.vobj (((String.mk kr.1, vr.1) :: acc)).reverse, rest5)
              else .error "json: expected comma or end of object"
            | [] => .error "json: unterminated object"
          else .error "json: expected colon"
        | [] => .error "json: unterminated object"
      else .error "json: expected a quoted key"
    | [] => .error "json: unterminated object"

end

/-- Modelled from the spec: the platform JSON.parse used by parseJSON in
src/script.js line 167 is not part of the repository; this model parses a
whole text to a JSVal or fails with a message. -/
def jsonParse (s : String) : Except String JSVal := do
  let vr ← parseVal (s.length + 1) s.data
  match skipWs vr.2 with
  | [] => pure vr.1
  | _ => .error "json: unexpected trailing characters"

/-- The fixed alert text of src/script.js line 170, shown on a parse
failure. -/
def parseAlertText : String :=
  "Помилка парсингу JSON. Перевірте правильність формату даних."

/-- The blank-input test of src/script.js line 162: the condition of
not input, or not input.trim(), holds exactly when every character of the
input is whitespace (the empty input included). -/
def isBlank (input : String) : Bool :=
  input.data.all Char.isWhitespace

/-- The return value of parseJSON (src/script.js lines 161 to 173): null
for empty or whitespace-only input, the parsed value on success, and null
again when parsing fails (the failure is signalled only by an alert). -/
def parseJSON (input : String) : JSVal :=
  if isBlank input then .vnull
  else
    match jsonParse input with
    | .ok v => v
    | .error _ => .vnull

/-- The alert side effect of parseJSON: none for blank input or a
successful parse, the fixed message of line 170 on a parse failure (the
parser message itself goes only to the console). -/
def parseJSONAlert (input : String) : Option String :=
  if isBlank input then none
  else
    match jsonParse input with
    | .ok _ => none
    | .error _ => some parseAlertText

/-- The input unwrapper of src/script.js lines 203 and 206:
raw.relationships_following or raw (and the followers analogue); the field
read throws on a nullish root. -/
def unwrap (root : JSVal) (key : String) : Except String JSVal := do
  let v ← getFieldE root key
  pure (jsOr v root)

/-- The result triple handed to displayResults. -/
structure AnalysisResult where
  following : List JRec
  followers : List JRec
  notFollowingBack : List JRec

/-- Effectful filter in the Except monad, as Array.prototype.filter with a
callback that can throw. -/
def filterE (p : α → Except ε Bool) : List α → Except ε (List α)
  | [] => .ok []
  | x :: xs =>
    match p x with
    | .error e => .error e
    | .ok b =>
      match filterE p xs with
      | .error e => .error e
      | .ok ys => .ok (if b then x :: ys else ys)

/-- The try-block of analyze (src/script.js lines 200 to 218): unwrap and
normalize both inputs, build the folded follower username set, and filter
the following list; any TypeError escapes to the catch handler. -/
def analyzeRaw (followingRaw followersRaw : JSVal) : Except String AnalysisResult := do
  let followingSrc ← unwrap followingRaw "relationships_following"
  let following ← extractUsernames followingSrc
  let followersSrc ← unwrap followersRaw "relationships_followers"
  let followers ← extractUsernames followersSrc
  let fset ← mapE (fun x => toLowerE x.username) followers
  let nfb ← filterE
    (fun x => do
      let l ← toLowerE x.username
      pure (!(fset.contains l)))
    following
  pure { following := following, followers := followers, notFollowingBack := nfb }

/-- Observable outcome of one run of analyze: silent early return, a
displayed result, or the generic analysis-failure alert of line 225. -/
inductive AnalyzeOutcome where
  | aborted
  | displayed (r : AnalysisResult)
  | failed (msg : String)

/-- The orchestration of analyze (src/script.js lines 184 to 230): parse
both texts, return silently when either parsed value is falsy, otherwise
run the pipeline under the catch handler. -/
def analyzeTexts (followingText followersText : String) : AnalyzeOutcome :=
  let followingRaw := parseJSON followingText
  let followersRaw := parseJSON followersText
  if !truthy followingRaw || !truthy followersRaw then .aborted
  else
    match analyzeRaw followingRaw followersRaw with
    | .ok res => .displayed res
    | .error e => .failed e

/-- Username derivation exactly as claim C3 words it: the value field of
the first item of string_list_data whenever that sequence is non-empty,
otherwise the title field, otherwise the empty string. -/
def c3ClaimUsername (item : JSVal) : JSVal :=
  match lookupKey item "string_list_data" with
  | some (.varr (e :: _)) => optGet e "value"
  | _ =>
    match lookupKey item "title" with
    | some t => t
    | none => .vstr ""

/-- Username derivation as amended for claim C3: the value field of the
first item of string_list_data whenever that sequence is non-empty and the
value is truthy, otherwise the title field whenever present and truthy,
otherwise the empty string. -/
def c3AmendedUsername (item : JSVal) : JSVal :=
  let fromSld : JSVal :=
    match lookupKey item "string_list_data" with
    | some (.varr (e :: _)) => optGet e "value"
    | _ => .vundefined
  if truthy fromSld then fromSld
  else
    let t := (lookupKey item "title").getD .vundefined
    if truthy t then t else .vstr ""

/-- An entry whose first string_list_data item carries the empty string as
value while a title is also present. -/
def c3Item : JSVal :=
  .vobj [("string_list_data", .varr [.vobj [("value", .vstr ""), ("href", .vstr "h")]]),
         ("title", .vstr "t")]

/-- The string_list_data field, when present on the element, is an array. -/
def sldIsArray (item : JSVal) : Bool :=
  match lookupKey item "string_list_data" with
  | some v => isArr v
  | none => true

/-- Every element of an array input is non-nullish; trivially true for
non-array inputs. -/
def elemsNotNullish : JSVal → Bool
  | .varr xs => xs.all notNullish
  | _ => true

/-- A root object whose unwrap key is present but holds null. -/
def c6Root : JSVal :=
  .vobj [("relationships_following", .vnull)]

/-- The wrapped export example of the spec. -/
def wrappedDemo : JSVal :=
  .vobj [("relationships_following",
    .varr [.vobj [("string_list_data",
      .varr [.vobj [("value", .vstr "x"), ("href", .vstr "h")]])]])]

/-- Two entries deriving the same username up to case. -/
def dupDemo : JSVal :=
  .varr [
    .vobj [("string_list_data", .varr [.vobj [("value", .vstr "Ann"), ("href", .vstr "h1")]])],
    .vobj [("string_list_data", .varr [.vobj [("value", .vstr "ann"), ("href", .vstr "h2")]])]]


/- Helper lemmas shared by the claim theorems. -/

theorem exceptBind_ok (a : α) (f : α → Except ε β) :
    (Except.ok a >>= f) = f a := rfl

theorem exceptBind_err (e : ε) (f : α → Except ε β) :
    ((Except.error e : Except ε α) >>= f) = Except.error e := rfl

theorem notNullish_of_truthy {v : JSVal} (h : truthy v = true) : notNullish v = true := by
  cases v <;> simp_all [truthy, notNullish]

theorem getFieldE_ok (k : String) {v : JSVal} (h : notNullish v = true) :
    getFieldE v k = .ok (jsGetD v k) := by
  cases v <;> simp_all [notNullish, getFieldE]

theorem deriveRecord_eq {item : JSVal} (h : notNullish item = true) :
    deriveRecord item = .ok
      { username := jsOr (optGet (optIndex0 (jsGetD item "string_list_data")) "value")
          (jsOr (jsGetD item "title") (.vstr ""))
        href := jsOr (optGet (optIndex0 (jsGetD item "string_list_data")) "href") (.vstr "") } := by
  simp only [deriveRecord, getFieldE_ok, h, exceptBind_ok]
  rfl

theorem mapE_length {f : α → Except ε β} :
    ∀ (xs : List α) (ys : List β), mapE f xs = .ok ys → ys.length = xs.length := by
  intro xs
  induction xs with
  | nil =>
    intro ys h
    simp only [mapE] at h
    cases h
    rfl
  | cons x xs ih =>
    intro ys h
    simp only [mapE] at h
    cases hf : f x with
    | error e => simp [hf] at h
    | ok y =>
      simp only [hf] at h
      cases hm : mapE f xs with
      | error e => simp [hm] at h
      | ok zs =>
        simp only [hm] at h
        cases h
        simp [ih zs hm]

theorem mapE_isOk {f : α → Except ε β} :
    ∀ (xs : List α), (∀ x ∈ xs, ∃ y, f x = .ok y) → ∃ ys, mapE f xs = .ok ys := by
  intro xs
  induction xs with
  | nil => intro _; exact ⟨[], rfl⟩
  | cons x xs ih =>
    intro h
    obtain ⟨y, hy⟩ := h x (by simp)
    obtain ⟨ys, hys⟩ := ih fun z hz => h z (by simp [hz])
    exact ⟨y :: ys, by simp [mapE, hy, hys]⟩

theorem extractUsernames_varr {xs : List JSVal} {l : List JRec}
    (h : extractUsernames (.varr xs) = .ok l) :
    ∃ recs, mapE deriveRecord xs = .ok recs
      ∧ l = recs.filter fun r => truthy r.username := by
  simp only [extractUsernames] at h
  cases hm : mapE deriveRecord xs with
  | error e => rw [hm, exceptBind_err] at h; cases h
  | ok recs =>
    rw [hm, exceptBind_ok] at h
    cases h
    exact ⟨recs, rfl, rfl⟩

/-- C1: a following record lands in notFollowingBack exactly when its
lowercase-folded username is absent from the set of lowercase-folded
follower usernames; in particular matching is case-insensitive, so
following Bob against follower bob yields an empty notFollowingBack. -/
theorem c1_notFollowingBack_iff :
    (∀ (following followers : List ContactRecord) (x : ContactRecord),
        x ∈ following →
          (x ∈ notFollowingBack following followers ↔
            strToLower x.username ∉ followersSet followers))
      ∧ notFollowingBack [⟨"Bob", ""⟩] [⟨"bob", ""⟩] = [] := by
  constructor
  · intro following followers x hx
    simp [notFollowingBack, List.mem_filter, hx, List.elem_iff]
  · decide

theorem c1_witness :
    ((⟨"b", "u"⟩ : ContactRecord) ∈ notFollowingBack [⟨"b", "u"⟩] [⟨"a", ""⟩]) :=
  (c1_notFollowingBack_iff.1 [⟨"b", "u"⟩] [⟨"a", ""⟩] ⟨"b", "u"⟩ (by decide)).mpr (by decide)

/-- C2: notFollowingBack is a subsequence of the following list, so it
preserves relative order and every retained record is literally a record
of the following list with its original username casing and href. -/
theorem c2_notFollowingBack_subseq :
    ∀ (following followers : List ContactRecord),
      List.Sublist (notFollowingBack following followers) following :=
  fun following _ => List.filter_sublist following

/-- C8: every non-array input, null, strings and plain objects included,
yields the empty list without failing, and so does the empty array. -/
theorem c8_nonArray_empty :
    (∀ data : JSVal, isArr data = false → extractUsernames data = .ok [])
      ∧ extractUsernames (.varr []) = .ok []
      ∧ extractUsernames .vnull = .ok []
      ∧ extractUsernames (.vstr "not array") = .ok []
      ∧ extractUsernames (.vobj []) = .ok [] := by
  refine ⟨?_, rfl, rfl, rfl, rfl⟩
  intro data h
  cases data <;> first | rfl | simp [isArr] at h

theorem c8_witness : extractUsernames (.vnum 7) = .ok [] :=
  c8_nonArray_empty.1 (.vnum 7) rfl

/-- C10: no deduplication anywhere — a following record with an unmatched
folded username keeps its full multiplicity in notFollowingBack, and two
entries deriving the same username up to case both come out of
extractUsernames, in input order. -/
theorem c10_no_dedup :
    (∀ (following followers : List ContactRecord) (x : ContactRecord),
        strToLower x.username ∉ followersSet followers →
          (notFollowingBack following followers).count x = following.count x)
      ∧ extractUsernames dupDemo =
          .ok [{ username := .vstr "Ann", href := .vstr "h1" },
               { username := .vstr "ann", href := .vstr "h2" }]
      ∧ notFollowingBack [⟨"ann", "h1"⟩, ⟨"Ann", "h2"⟩] [] =
          [⟨"ann", "h1"⟩, ⟨"Ann", "h2"⟩] := by
  refine ⟨?_, rfl, by decide⟩
  intro following followers x hx
  exact List.count_filter (by simpa [followersSet, List.elem_iff] using hx)

theorem c10_witness :
    (notFollowingBack [⟨"q", ""⟩, ⟨"q", ""⟩] []).count ⟨"q", ""⟩ =
      ([⟨"q", ""⟩, ⟨"q", ""⟩] : List ContactRecord).count ⟨"q", ""⟩ :=
  c10_no_dedup.1 [⟨"q", ""⟩, ⟨"q", ""⟩] [] ⟨"q", ""⟩ (by decide)

/-- C5 fails as stated: a null array element makes the map callback read
item.string_list_data off null, which throws a TypeError instead of
degrading. -/
theorem c5_counterexample :
    extractUsernames (.varr [.vnull]) =
      .error "TypeError: cannot read properties of null" := rfl

/-- C5 amended: extractUsernames never raises an error provided every
element of an array input is non-nullish; all other shape mismatches
degrade to dropping or defaulting fields. -/
theorem c5_amended :
    ∀ data : JSVal, elemsNotNullish data = true →
      ∃ l, extractUsernames data = .ok l := by
  intro data h
  cases data with
  | varr xs =>
    simp only [elemsNotNullish, List.all_eq_true] at h
    obtain ⟨recs, hrecs⟩ :=
      mapE_isOk xs fun x hx => ⟨_, deriveRecord_eq (h x hx)⟩
    exact ⟨recs.filter fun r => truthy r.username,
      by simp [extractUsernames, hrecs, exceptBind_ok]⟩
  | vnull => exact ⟨[], rfl⟩
  | vundefined => exact ⟨[], rfl⟩
  | vbool b => exact ⟨[], rfl⟩
  | vnum n => exact ⟨[], rfl⟩
  | vstr s => exact ⟨[], rfl⟩
  | vobj fs => exact ⟨[], rfl⟩

theorem c5_witness :
    ∃ l, extractUsernames (.varr [.vobj [], .vnum 3, .vstr "s"]) = .ok l :=
  c5_amended (.varr [.vobj [], .vnum 3, .vstr "s"]) rfl

/-- C7 fails as stated: an element whose title is the number 5 yields an
output record whose username is that number, not a non-empty string. -/
theorem c7_counterexample :
    extractUsernames (.varr [.vobj [("title", .vnum 5)]]) =
        .ok [{ username := .vnum 5, href := .vstr "" }]
      ∧ isStr (JSVal.vnum 5) = false :=
  ⟨rfl, rfl⟩

/-- C7 amended: whenever extractUsernames returns a list, its length is at
most the input array length and every output record has a truthy username,
hence a non-empty one whenever it is a string; records without a derivable
username are dropped silently. -/
theorem c7_amended :
    ∀ (data : JSVal) (l : List JRec), extractUsernames data = .ok l →
      l.length ≤ inputLen data
        ∧ ∀ r ∈ l, truthy r.username = true ∧ ∀ s, r.username = .vstr s → s ≠ "" := by
  intro data l h
  cases data with
  | varr xs =>
    obtain ⟨recs, hm, hl⟩ := extractUsernames_varr h
    constructor
    · rw [hl, inputLen, ← mapE_length xs recs hm]
      exact List.length_filter_le _ recs
    · intro r hr
      rw [hl] at hr
      have ht : truthy r.username = true := (List.mem_filter.mp hr).2
      refine ⟨ht, ?_⟩
      intro s hs
      rw [hs] at ht
      simpa [truthy] using ht
  | vnull => simp only [extractUsernames] at h; cases h; simp
  | vundefined => simp only [extractUsernames] at h; cases h; simp
  | vbool b => simp only [extractUsernames] at h; cases h; simp
  | vnum n => simp only [extractUsernames] at h; cases h; simp
  | vstr s => simp only [extractUsernames] at h; cases h; simp
  | vobj fs => simp only [extractUsernames] at h; cases h; simp

theorem c7_witness :
    ([{ username := JSVal.vstr "x", href := JSVal.vstr "" }] : List JRec).length
        ≤ inputLen (.varr [.vobj [("title", .vstr "x")]])
      ∧ ∀ r ∈ ([{ username := JSVal.vstr "x", href := JSVal.vstr "" }] : List JRec),
          truthy r.username = true ∧ ∀ s, r.username = .vstr s → s ≠ "" :=
  c7_amended (.varr [.vobj [("title", .vstr "x")]]) _ rfl

theorem exceptPure (a : α) : (pure a : Except ε α) = .ok a := rfl

/-- C3 fails as stated: when the first string_list_data item carries the
empty string as value and a title is present, the code falls back to the
title instead of using the empty value. -/
theorem c3_counterexample :
    deriveRecord c3Item = .ok { username := .vstr "t", href := .vstr "h" }
      ∧ c3ClaimUsername c3Item = .vstr ""
      ∧ JSVal.vstr "t" ≠ JSVal.vstr "" := by
  refine ⟨rfl, rfl, ?_⟩
  simp

/-- C3 amended: the derived username is the value of the first
string_list_data item whenever that sequence is non-empty and the value is
truthy, otherwise the title whenever truthy, otherwise the empty string
(stated for non-nullish elements whose string_list_data, when present, is
an array). -/
theorem c3_amended :
    ∀ item : JSVal, notNullish item = true → sldIsArray item = true →
      ∃ r, deriveRecord item = .ok r ∧ r.username = c3AmendedUsername item := by
  intro item h hs
  refine ⟨_, deriveRecord_eq h, ?_⟩
  cases item with
  | vobj fs =>
    simp only [sldIsArray, lookupKey] at hs
    simp only [c3AmendedUsername, lookupKey, jsGetD]
    cases hsld : fs.lookup "string_list_data" with
    | none => simp [optIndex0, optGet, notNullish, jsOr, truthy]
    | some v =>
      rw [hsld] at hs
      cases v with
      | varr es =>
        cases es with
        | nil => simp [optIndex0, index0, optGet, notNullish, jsOr, truthy]
        | cons e es => simp [optIndex0, index0, notNullish, jsOr]
      | vnull => simp [isArr] at hs
      | vundefined => simp [isArr] at hs
      | vbool b => simp [isArr] at hs
      | vnum n => simp [isArr] at hs
      | vstr s => simp [isArr] at hs
      | vobj gs => simp [isArr] at hs
  | vnull => simp [notNullish] at h
  | vundefined => simp [notNullish] at h
  | vbool b => simp [c3AmendedUsername, lookupKey, jsGetD, optIndex0, optGet, notNullish, jsOr, truthy]
  | vnum n => simp [c3AmendedUsername, lookupKey, jsGetD, optIndex0, optGet, notNullish, jsOr, truthy]
  | vstr s => simp [c3AmendedUsername, lookupKey, jsGetD, optIndex0, optGet, notNullish, jsOr, truthy]
  | varr es => simp [c3AmendedUsername, lookupKey, jsGetD, optIndex0, optGet, notNullish, jsOr, truthy]

theorem c3_witness :
    ∃ r, deriveRecord (.vobj [("title", .vstr "t")]) = .ok r
      ∧ r.username = c3AmendedUsername (.vobj [("title", .vstr "t")]) :=
  c3_amended (.vobj [("title", .vstr "t")]) rfl rfl

/-- C4 fails as stated: the blank outcome and the parse-failure outcome
are the same returned value null, and the alert raised on failure carries
a fixed text, not the parser message. -/
theorem c4_counterexample :
    parseJSON "   " = parseJSON "\x7bbad"
      ∧ jsonParse "\x7bbad" = .error "json: expected a quoted key"
      ∧ parseJSONAlert "\x7bbad" = some parseAlertText
      ∧ parseAlertText ≠ "json: expected a quoted key" := by
  refine ⟨rfl, rfl, rfl, ?_⟩
  decide

/-- C4 amended: parseJSON returns null both for blank input and for failed
parses; the two cases are told apart only by the alert side effect — no
alert for blank input, the fixed alert text on a failed parse — and a
successful parse returns the parsed value with no alert. -/
theorem c4_amended :
    ∀ input : String,
      (isBlank input = true → parseJSON input = .vnull ∧ parseJSONAlert input = none)
        ∧ (∀ e, isBlank input = false → jsonParse input = .error e →
            parseJSON input = .vnull ∧ parseJSONAlert input = some parseAlertText)
        ∧ (∀ v, isBlank input = false → jsonParse input = .ok v →
            parseJSON input = v ∧ parseJSONAlert input = none) := by
  intro input
  refine ⟨fun h => ?_, fun e hb he => ?_, fun v hb hv => ?_⟩
  · simp [parseJSON, parseJSONAlert, h]
  · simp [parseJSON, parseJSONAlert, hb, he]
  · simp [parseJSON, parseJSONAlert, hb, hv]

theorem c4_witness :
    (parseJSON "   " = .vnull ∧ parseJSONAlert "   " = none)
      ∧ (parseJSON "\x7bbad" = .vnull ∧ parseJSONAlert "\x7bbad" = some parseAlertText) :=
  ⟨(c4_amended "   ").1 rfl,
   (c4_amended "\x7bbad").2.1 "json: expected a quoted key" rfl rfl⟩

/-- C6 fails as stated: when the key is present but holds a falsy nested
value such as null, the unwrapper returns the root, not the nested value. -/
theorem c6_counterexample :
    lookupKey c6Root "relationships_following" = some .vnull
      ∧ unwrap c6Root "relationships_following" = .ok c6Root
      ∧ c6Root ≠ JSVal.vnull := by
  refine ⟨rfl, rfl, ?_⟩
  simp [c6Root]

/-- C6 amended: for truthy roots the unwrapper returns the nested value at
the key whenever that value is truthy, and otherwise the root itself
unchanged; the wrapped export example unwraps and normalizes to the single
record with username x and href h. -/
theorem c6_amended :
    (∀ (root : JSVal) (key : String) (v : JSVal),
        truthy root = true → lookupKey root key = some v → truthy v = true →
          unwrap root key = .ok v)
      ∧ (∀ (root : JSVal) (key : String),
          truthy root = true → truthy (jsGetD root key) = false →
            unwrap root key = .ok root)
      ∧ (unwrap wrappedDemo "relationships_following" >>= extractUsernames) =
          .ok [{ username := .vstr "x", href := .vstr "h" }] := by
  refine ⟨?_, ?_, rfl⟩
  · intro root key v hr hk hv
    have hn := notNullish_of_truthy hr
    have hg : jsGetD root key = v := by
      cases root <;> simp_all [lookupKey, jsGetD]
    simp only [unwrap, getFieldE_ok, hn, exceptBind_ok, hg, exceptPure]
    simp [jsOr, hv]
  · intro root key hr hv
    have hn := notNullish_of_truthy hr
    simp only [unwrap, getFieldE_ok, hn, exceptBind_ok, exceptPure]
    simp [jsOr, hv]

theorem c6_witness :
    unwrap (.vobj [("k", .varr [])]) "k" = .ok (.varr [])
      ∧ unwrap (.varr [.vnum 1]) "k" = .ok (.varr [.vnum 1]) :=
  ⟨c6_amended.1 _ "k" _ rfl rfl rfl, c6_amended.2.1 _ "k" rfl rfl⟩

/-- C9: when either raw text parses to a falsy JSON value — as the texts
null, 0, false and the empty JSON string all do — analyze aborts silently
exactly as for blank input: no alert, no pipeline run, no result. -/
theorem c9_falsy_aborts :
    (∀ followingText followersText : String,
        truthy (parseJSON followingText) = false
            ∨ truthy (parseJSON followersText) = false →
          analyzeTexts followingText followersText = .aborted)
      ∧ analyzeTexts "   " "[]" = .aborted
      ∧ (parseJSON "null" = .vnull ∧ parseJSONAlert "null" = none
          ∧ analyzeTexts "null" "[]" = .aborted)
      ∧ (parseJSON "0" = .vnum 0 ∧ parseJSONAlert "0" = none
          ∧ analyzeTexts "0" "[]" = .aborted)
      ∧ (parseJSON "false" = .vbool false ∧ parseJSONAlert "false" = none
          ∧ analyzeTexts "false" "[]" = .aborted)
      ∧ (parseJSON "\"\"" = .vstr "" ∧ parseJSONAlert "\"\"" = none
          ∧ analyzeTexts "[]" "\"\"" = .aborted) := by
  refine ⟨?_, rfl, ⟨rfl, rfl, rfl⟩, ⟨rfl, rfl, rfl⟩, ⟨rfl, rfl, rfl⟩, ⟨rfl, rfl, rfl⟩⟩
  intro t1 t2 h
  rcases h with h | h <;> simp [analyzeTexts, h]

theorem c9_witness : analyzeTexts "null" "0" = .aborted :=
  c9_falsy_aborts.1 "null" "0" (Or.inl rfl)
